import Mathlib

/- Shallow embedding of src/zvi_reader.py, the ZVI image-sequence reader.
The reader scans an OLE compound-file container for streams named
Image/Item(k)/..., reports the maximum recognized item number as its
length, and decodes each frame as a fixed-shape 16-bit little-endian
grayscale array, circularly rolled back by 162 samples. -/

/-- Errors surfaced by the reader. The Python source raises the
corresponding built-in exceptions; the names follow the error taxonomy
of the design document. -/
inductive PyError where
  | indexError
  | missingFrameError
  | decodeError
  | emptyIndexError
  | configurationError
  deriving DecidableEq, Repr

/-- The numpy dtypes the embedding needs. The source hard-codes
np.uint16 at construction. -/
inductive NpDtype where
  | uint8
  | uint16
  | int32
  deriving DecidableEq, Repr

/-- I/O actions observable at construction time. Source lines 71-72 open
the container and list its streams before any other constructor work. -/
inductive IoEvent where
  | openContainer
  | listStreams
  deriving DecidableEq, Repr

/-- The OLE container as the reader sees it: the stream listing returned
by OleFileIO.listdir, and the content lookup performed by
OleFileIO.openstream followed by read. A lookup result of none models
the stream-not-found failure. Bytes are Nats below 256. -/
structure Container where
  streams : List (List String)
  content : List String → Option (List Nat)

/-- pims Frame: a decoded pixel array, given as its list of rows, tagged
with the originating frame number. -/
structure Frame where
  data : List (List Nat)
  frame_no : Int
  deriving DecidableEq, Repr

/-- The characters of the literal Item-open text that the source regex
requires at the start of the second path component. -/
def itemHead : List Char := ['I', 't', 'e', 'm', '(']

/-- Decimal value of a digit run, as the Python int conversion of the
captured group computes it. -/
def digitsVal (ds : List Char) : Nat :=
  ds.foldl (fun a c => 10 * a + (c.toNat - 48)) 0

/-- The part of the source regex after the literal Item-open text: a
nonempty greedy digit run followed by a closing parenthesis. Anything
may follow the closing parenthesis, because re.match anchors at the
start of the string only. -/
def parseAfter (rest : List Char) : Option Nat :=
  if rest.takeWhile Char.isDigit = [] then none
  else if (rest.dropWhile Char.isDigit).head? = some ')' then
    some (digitsVal (rest.takeWhile Char.isDigit))
  else none

/-- The source pattern match on a path component, re.match with pattern
Item\((\d+)\) followed by int of the captured group: returns the item
number when the component starts with the Item-open text, a nonempty
digit run and a closing parenthesis. -/
def parseItemChars (l : List Char) : Option Nat :=
  if l.take 5 = itemHead then parseAfter (l.drop 5) else none

/-- String-level wrapper of the component pattern match. -/
def parseItem (s : String) : Option Nat :=
  parseItemChars s.data

/-- One iteration of the stream scan in the constructor, source lines
79-85. The Python code reads stream index 0 and possibly stream index 1,
so a too-short path raises IndexError; a path whose first component is
not Image, or whose second component does not start with the Item
pattern, is skipped. -/
def scanStream : List String → Except PyError (Option Nat)
  | [] => .error PyError.indexError
  | c0 :: rest =>
    if c0 = "Image" then
      match rest with
      | [] => .error PyError.indexError
      | c1 :: _ => .ok (parseItem c1)
    else .ok none

/-- The constructor loop accumulating the table of contents, appending
each recognized item number in listing order. -/
def buildTocAux (acc : List Nat) : List (List String) → Except PyError (List Nat)
  | [] => .ok acc
  | s :: rest =>
    match scanStream s with
    | .error e => .error e
    | .ok none => buildTocAux acc rest
    | .ok (some n) => buildTocAux (acc ++ [n]) rest

/-- The table of contents built by the constructor from the stream
listing, source lines 78-85. -/
def buildToc (streams : List (List String)) : Except PyError (List Nat) :=
  buildTocAux [] streams

/-- The item number a single stream path contributes, when the scan of
that path succeeds and recognizes it. -/
def scanOk (s : List String) : Option Nat :=
  match scanStream s with
  | .ok (some n) => some n
  | _ => none

/-- The recognized item numbers of a listing, in listing order. -/
def okToc (streams : List (List String)) : List Nat :=
  streams.filterMap scanOk

/-- Python max over a list of Nats: none on the empty list, where the
Python built-in raises, otherwise a fold of the binary maximum. -/
def pyMax : List Nat → Option Nat
  | [] => none
  | x :: xs => some (xs.foldl max x)

/-- Modelled from the spec: the greyscale conversion transform installed
by the external pims base class when the greyscale flag is set. On the
fixed single-channel 16-bit layout decoded here it leaves the array
unchanged, spec 4.3: not applicable to the fixed grayscale pixel format
currently decoded, but the validation ordering is preserved. -/
def greyTransform : List (List Nat) → List (List Nat) := id

/-- Modelled from the spec: the construction-time validation performed by
the external pims base-class methods, called by source lines 89-90.
Supplying both a processing transform and the greyscale flag fails with
ConfigurationError, spec 4.3; otherwise the stored transform is the
supplied one, the greyscale conversion, or the identity. -/
def asGreyCheck (process_func : Option (List (List Nat) → List (List Nat)))
    (as_grey : Bool) : Except PyError (List (List Nat) → List (List Nat)) :=
  if as_grey then
    match process_func with
    | some _ => .error PyError.configurationError
    | none => .ok greyTransform
  else .ok (process_func.getD id)

/-- The constructed reader object: container handle, manually supplied
shape, hard-coded dtype, table of contents, reported length, and the
stored processing transform. -/
structure ZVI where
  ole : Container
  im_sz : Nat × Nat
  dtype : NpDtype
  toc : List Nat
  len : Nat
  process_func : List (List Nat) → List (List Nat)

/-- The constructor, source lines 68-90, with its observable I/O trace.
Opening the container and listing its streams happen first, lines 71-72;
then the table of contents is built, lines 78-85; then the length is the
Python max of the table, line 86, raising on an empty table; only then
do the process-function and greyscale validations run, lines 89-90. The
dtype argument is never consulted, line 74 hard-codes uint16. -/
def ZVI.initCore (c : Container) (shape : Nat × Nat)
    (process_func : Option (List (List Nat) → List (List Nat)))
    (dtype : Option NpDtype) (as_grey : Bool) : Except PyError ZVI :=
  match buildToc c.streams with
  | .error e => .error e
  | .ok toc =>
    match pyMax toc with
    | none => .error PyError.emptyIndexError
    | some m =>
      match asGreyCheck process_func as_grey with
      | .error e => .error e
      | .ok pf => .ok ⟨c, shape, NpDtype.uint16, toc, m, pf⟩

/-- The constructor with its observable I/O trace: opening the container
and listing its streams, lines 71-72, happen before the index is built
and before any validation runs. -/
def ZVI.init (c : Container) (shape : Nat × Nat)
    (process_func : Option (List (List Nat) → List (List Nat)))
    (dtype : Option NpDtype) (as_grey : Bool) :
    List IoEvent × Except PyError ZVI :=
  ([IoEvent.openContainer, IoEvent.listStreams],
    ZVI.initCore c shape process_func dtype as_grey)

/-- The pixel_type property, source lines 100-102. -/
def ZVI.pixel_type (z : ZVI) : NpDtype := z.dtype

/-- The frame_shape property, source lines 104-106: returns the shape
the caller supplied, a width-height pair in the PIL size convention. -/
def ZVI.frame_shape (z : ZVI) : Nat × Nat := z.im_sz

/-- The stream label built by get_frame, source line 93. -/
def itemPath (j : Int) : List String :=
  ["Image", "Item(" ++ toString j ++ ")", "Contents"]

/-- Pairs of bytes combined little-endian into 16-bit samples, the
decode performed by PIL mode I;16L; a trailing odd byte is ignored. -/
def bytesToSamples : List Nat → List Nat
  | b0 :: b1 :: rest => (b0 + 256 * b1) :: bytesToSamples rest
  | _ => []

/-- np.roll on a flattened buffer: the element at position i of the
result is the element at position i minus shift, modulo the length, of
the input; equivalently a left rotation by the negated shift reduced
modulo the length. -/
def npRoll (x : List Nat) (shift : Int) : List Nat :=
  x.rotate (Int.toNat ((-shift) % (x.length : Int)))

/-- Reshaping a flat sample buffer into h rows of w samples, the numpy
view of a PIL image of size w by h. -/
def chunkRows (w : Nat) : Nat → List Nat → List (List Nat)
  | 0, _ => []
  | h + 1, xs => xs.take w :: chunkRows w h (xs.drop w)

/-- The sample sequence of one frame after the offset correction: the
first w times h 16-bit little-endian samples of the stream, circularly
rolled by minus 162, source lines 95-97. -/
def decodedSamples (w h : Nat) (data : List Nat) : List Nat :=
  npRoll (bytesToSamples (data.take (2 * (w * h)))) (-162)

/-- get_frame, source lines 92-98. Builds the stream label, reads the
stream, failing when the container has no such stream; fails when the
stream is shorter than the configured shape requires, as the PIL decode
does; otherwise decodes 16-bit little-endian samples, applies the
circular offset correction of minus 162 samples, reshapes to h rows of
w samples, applies the stored processing transform, and tags the result
with the requested frame number. -/
def ZVI.get_frame (z : ZVI) (j : Int) : Except PyError Frame :=
  match z.ole.content (itemPath j) with
  | none => .error PyError.missingFrameError
  | some data =>
    if data.length < 2 * (z.im_sz.1 * z.im_sz.2) then .error PyError.decodeError
    else .ok ⟨z.process_func (chunkRows z.im_sz.1 z.im_sz.2
        (decodedSamples z.im_sz.1 z.im_sz.2 data)), j⟩

/-- get_frame in state-passing form: the source mutates no attribute of
the object and each call rereads the stream, so the state comes back
unchanged. -/
def ZVI.get_frameS (z : ZVI) (j : Int) : Except PyError Frame × ZVI :=
  (z.get_frame j, z)

/-- Modelled from the spec: the indexed-retrieval facade inherited from
the external pims base class, spec 4.3: a negative index counts from the
end, an index out of range after normalization fails with IndexError,
and an in-range index delegates to get_frame. -/
def ZVI.get (z : ZVI) (j : Int) : Except PyError Frame :=
  if (if j < 0 then j + z.len else j) < 0 ∨
      (z.len : Int) ≤ (if j < 0 then j + z.len else j) then
    .error PyError.indexError
  else z.get_frame (if j < 0 then j + z.len else j)

/-- The reported length of a construction result, when it succeeded. -/
def initLen (r : List IoEvent × Except PyError ZVI) : Option Nat :=
  match r.2 with
  | .ok z => some z.len
  | .error _ => none

/-- The result of requesting frame j from a construction result, when
construction succeeded. -/
def initGet (r : List IoEvent × Except PyError ZVI) (j : Int) :
    Option (Except PyError Frame) :=
  match r.2 with
  | .ok z => some (z.get_frame j)
  | .error _ => none

/-- Whether a frame request succeeded. -/
def isOkFrame : Except PyError Frame → Bool
  | .ok _ => true
  | .error _ => false

/-- The numpy shape of a row-list array: number of rows, then the length
of the first row. -/
def rowsShape (rows : List (List Nat)) : Nat × Nat :=
  (rows.length, (rows.headD []).length)

/-- Formalisation of the claim wording for the stream filter: the second
component matches the pattern Item-open, digits, close-parenthesis in
its entirety, nothing following the closing parenthesis. -/
def parseItemFull (s : String) : Option Nat :=
  match s.data with
  | l =>
    if l.take 5 = itemHead then
      (if (l.drop 5).takeWhile Char.isDigit = [] then none
       else if (l.drop 5).dropWhile Char.isDigit = [')'] then
         some (digitsVal ((l.drop 5).takeWhile Char.isDigit))
       else none)
    else none

instance {e a : Type} [DecidableEq e] [DecidableEq a] : DecidableEq (Except e a) := fun x y =>
  match x, y with
  | Except.ok u, Except.ok v =>
    if h : u = v then Decidable.isTrue (congrArg Except.ok h)
    else Decidable.isFalse (fun hc => h (Except.ok.inj hc))
  | Except.error u, Except.error v =>
    if h : u = v then Decidable.isTrue (congrArg Except.error h)
    else Decidable.isFalse (fun hc => h (Except.error.inj hc))
  | Except.ok _, Except.error _ => Decidable.isFalse (fun hc => Except.noConfusion hc)
  | Except.error _, Except.ok _ => Decidable.isFalse (fun hc => Except.noConfusion hc)

/- ### Lemmas about the component pattern match -/

theorem takeWhile_all_append (p : Char → Bool) (ds : List Char) (x : Char)
    (tail : List Char) (hall : ∀ c ∈ ds, p c = true) (hx : p x = false) :
    (ds ++ x :: tail).takeWhile p = ds := by
  induction ds with
  | nil => simp [List.takeWhile_cons, hx]
  | cons a l ih =>
    have ha : p a = true := hall a (List.mem_cons_self a l)
    simp [List.takeWhile_cons, ha,
      ih (fun c hc => hall c (List.mem_cons_of_mem a hc))]

theorem dropWhile_all_append (p : Char → Bool) (ds : List Char) (x : Char)
    (tail : List Char) (hall : ∀ c ∈ ds, p c = true) (hx : p x = false) :
    (ds ++ x :: tail).dropWhile p = x :: tail := by
  induction ds with
  | nil => simp [List.dropWhile_cons, hx]
  | cons a l ih =>
    have ha : p a = true := hall a (List.mem_cons_self a l)
    simp [List.dropWhile_cons, ha,
      ih (fun c hc => hall c (List.mem_cons_of_mem a hc))]

/-- Characterization of the component pattern match: it succeeds exactly
on components of the form Item-open, nonempty digit run, closing
parenthesis, then an arbitrary remainder, and returns the decimal value
of that digit run. -/
theorem parseItemChars_eq_some (l : List Char) (n : Nat) :
    parseItemChars l = some n ↔
      ∃ ds tail, l = itemHead ++ (ds ++ ')' :: tail) ∧ ds ≠ [] ∧
        (∀ c ∈ ds, c.isDigit = true) ∧ n = digitsVal ds := by
  constructor
  · intro h
    unfold parseItemChars at h
    by_cases h5 : l.take 5 = itemHead
    · rw [if_pos h5] at h
      unfold parseAfter at h
      by_cases hds : (l.drop 5).takeWhile Char.isDigit = []
      · rw [if_pos hds] at h; exact absurd h (by simp)
      · rw [if_neg hds] at h
        by_cases hhd : ((l.drop 5).dropWhile Char.isDigit).head? = some ')'
        · rw [if_pos hhd] at h
          obtain ⟨tail, htail⟩ : ∃ t, (l.drop 5).dropWhile Char.isDigit = ')' :: t := by
            cases hcase : (l.drop 5).dropWhile Char.isDigit with
            | nil => rw [hcase] at hhd; simp at hhd
            | cons c t =>
              rw [hcase] at hhd
              simp only [List.head?_cons, Option.some.injEq] at hhd
              exact ⟨t, by rw [hhd]⟩
          refine ⟨(l.drop 5).takeWhile Char.isDigit, tail, ?_, hds, ?_, ?_⟩
          · conv_lhs => rw [← List.take_append_drop 5 l]
            rw [h5, ← htail, List.takeWhile_append_dropWhile]
          · intro c hc; exact List.mem_takeWhile_imp hc
          · exact (Option.some.inj h).symm
        · rw [if_neg hhd] at h; exact absurd h (by simp)
    · rw [if_neg h5] at h; exact absurd h (by simp)
  · rintro ⟨ds, tail, rfl, hne, hdig, rfl⟩
    have h5 : (itemHead ++ (ds ++ ')' :: tail)).take 5 = itemHead :=
      List.take_left' rfl
    have hdrop : (itemHead ++ (ds ++ ')' :: tail)).drop 5 = ds ++ ')' :: tail :=
      List.drop_left' rfl
    have htw : (ds ++ ')' :: tail).takeWhile Char.isDigit = ds :=
      takeWhile_all_append _ ds ')' tail hdig (by decide)
    have hdw : (ds ++ ')' :: tail).dropWhile Char.isDigit = ')' :: tail :=
      dropWhile_all_append _ ds ')' tail hdig (by decide)
    unfold parseItemChars parseAfter
    rw [if_pos h5, hdrop, htw, hdw, if_neg hne]
    simp

/- ### Lemmas about the Python max fold -/

theorem foldl_max_init_le : ∀ (xs : List Nat) (x : Nat), x ≤ xs.foldl max x
  | [], x => le_refl x
  | y :: ys, x => le_trans (le_max_left x y) (foldl_max_init_le ys (max x y))

theorem foldl_max_mem : ∀ (xs : List Nat) (x : Nat), xs.foldl max x ∈ x :: xs
  | [], _ => by simp
  | y :: ys, x => by
    have h := foldl_max_mem ys (max x y)
    simp only [List.foldl_cons]
    rcases List.mem_cons.mp h with h1 | h2
    · rcases max_choice x y with hx | hy
      · rw [h1, hx]; exact List.mem_cons_self _ _
      · rw [h1, hy]; exact List.mem_cons_of_mem _ (List.mem_cons_self _ _)
    · exact List.mem_cons_of_mem _ (List.mem_cons_of_mem _ h2)

theorem foldl_max_ub : ∀ (xs : List Nat) (x a : Nat), a ∈ x :: xs → a ≤ xs.foldl max x
  | [], x, a, ha => by
    simp only [List.mem_singleton] at ha
    exact ha ▸ le_refl a
  | y :: ys, x, a, ha => by
    simp only [List.foldl_cons]
    rcases List.mem_cons.mp ha with rfl | ha2
    · exact le_trans (le_max_left a y) (foldl_max_init_le ys (max a y))
    · rcases List.mem_cons.mp ha2 with rfl | ha3
      · exact le_trans (le_max_right x a) (foldl_max_init_le ys (max x a))
      · exact foldl_max_ub ys (max x y) a (List.mem_cons_of_mem _ ha3)

/-- The Python max of a nonempty list is a member and an upper bound. -/
theorem pyMax_spec (l : List Nat) (m : Nat) (h : pyMax l = some m) :
    m ∈ l ∧ ∀ a ∈ l, a ≤ m := by
  cases l with
  | nil => exact absurd h (by simp [pyMax])
  | cons x xs =>
    have hm : xs.foldl max x = m := Option.some.inj h
    exact ⟨hm ▸ foldl_max_mem xs x, fun a ha => hm ▸ foldl_max_ub xs x a ha⟩

theorem pyMax_of_ne_nil (l : List Nat) (h : l ≠ []) : ∃ m, pyMax l = some m := by
  cases l with
  | nil => exact absurd rfl h
  | cons x xs => exact ⟨xs.foldl max x, rfl⟩

/- ### Lemmas about the constructor scan -/

theorem buildTocAux_ok : ∀ (l : List (List String)) (acc t : List Nat),
    buildTocAux acc l = .ok t →
    t = acc ++ okToc l ∧ ∀ s ∈ l, ∃ r, scanStream s = .ok r := by
  intro l
  induction l with
  | nil =>
    intro acc t h
    have ht : acc = t := Except.ok.inj h
    subst ht
    exact ⟨by simp [okToc], by simp⟩
  | cons s rest ih =>
    intro acc t h
    unfold buildTocAux at h
    split at h
    · exact absurd h (by simp)
    · rename_i heq
      have hok : scanOk s = none := by unfold scanOk; rw [heq]
      obtain ⟨h1, h2⟩ := ih acc t h
      refine ⟨?_, ?_⟩
      · rw [h1]; unfold okToc; rw [List.filterMap_cons_none hok]
      · intro s' hs'
        rcases List.mem_cons.mp hs' with rfl | hmem
        · exact ⟨none, heq⟩
        · exact h2 s' hmem
    · rename_i n heq
      have hok : scanOk s = some n := by unfold scanOk; rw [heq]
      obtain ⟨h1, h2⟩ := ih (acc ++ [n]) t h
      refine ⟨?_, ?_⟩
      · rw [h1]; unfold okToc; rw [List.filterMap_cons_some hok]
        simp [List.append_assoc]
      · intro s' hs'
        rcases List.mem_cons.mp hs' with rfl | hmem
        · exact ⟨some n, heq⟩
        · exact h2 s' hmem

theorem buildTocAux_ok_of_scan : ∀ (l : List (List String)) (acc : List Nat),
    (∀ s ∈ l, ∃ r, scanStream s = .ok r) →
    buildTocAux acc l = .ok (acc ++ okToc l) := by
  intro l
  induction l with
  | nil => intro acc _; simp [buildTocAux, okToc]
  | cons s rest ih =>
    intro acc h
    obtain ⟨r, hr⟩ := h s (List.mem_cons_self s rest)
    have hrest : ∀ s' ∈ rest, ∃ r', scanStream s' = .ok r' :=
      fun s' hs' => h s' (List.mem_cons_of_mem s hs')
    cases r with
    | none =>
      have hok : scanOk s = none := by unfold scanOk; rw [hr]
      unfold buildTocAux
      rw [hr]
      show buildTocAux acc rest = _
      rw [ih acc hrest]
      unfold okToc
      rw [List.filterMap_cons_none hok]
    | some n =>
      have hok : scanOk s = some n := by unfold scanOk; rw [hr]
      unfold buildTocAux
      rw [hr]
      show buildTocAux (acc ++ [n]) rest = _
      rw [ih (acc ++ [n]) hrest]
      unfold okToc
      rw [List.filterMap_cons_some hok]
      simp [List.append_assoc]

theorem buildToc_ok (streams : List (List String)) (t : List Nat)
    (h : buildToc streams = .ok t) :
    t = okToc streams ∧ ∀ s ∈ streams, ∃ r, scanStream s = .ok r := by
  have := buildTocAux_ok streams [] t h
  simpa using this

theorem buildToc_ok_of_scan (streams : List (List String))
    (h : ∀ s ∈ streams, ∃ r, scanStream s = .ok r) :
    buildToc streams = .ok (okToc streams) := by
  have := buildTocAux_ok_of_scan streams [] h
  simpa [buildToc] using this

/- ### Constructor inversion -/

theorem initCore_ok_inv (c : Container) (shape : Nat × Nat)
    (pf : Option (List (List Nat) → List (List Nat))) (dt : Option NpDtype)
    (ag : Bool) (z : ZVI) (h : ZVI.initCore c shape pf dt ag = .ok z) :
    ∃ toc m pfn, buildToc c.streams = .ok toc ∧ pyMax toc = some m ∧
      asGreyCheck pf ag = .ok pfn ∧ z = ⟨c, shape, NpDtype.uint16, toc, m, pfn⟩ := by
  unfold ZVI.initCore at h
  split at h
  · exact absurd h (by simp)
  · rename_i toc heq
    split at h
    · exact absurd h (by simp)
    · rename_i m hm
      split at h
      · exact absurd h (by simp)
      · rename_i pfn hg
        exact ⟨toc, m, pfn, heq, hm, hg, (Except.ok.inj h).symm⟩

theorem initCore_ok (c : Container) (shape : Nat × Nat)
    (pf : Option (List (List Nat) → List (List Nat))) (dt : Option NpDtype)
    (ag : Bool) (toc : List Nat) (m : Nat)
    (pfn : List (List Nat) → List (List Nat))
    (h1 : buildToc c.streams = .ok toc) (h2 : pyMax toc = some m)
    (h3 : asGreyCheck pf ag = .ok pfn) :
    ZVI.initCore c shape pf dt ag = .ok ⟨c, shape, NpDtype.uint16, toc, m, pfn⟩ := by
  unfold ZVI.initCore
  simp [h1, h2, h3]

theorem initCore_empty (c : Container) (shape : Nat × Nat)
    (pf : Option (List (List Nat) → List (List Nat))) (dt : Option NpDtype)
    (ag : Bool) (h : buildToc c.streams = .ok []) :
    ZVI.initCore c shape pf dt ag = .error PyError.emptyIndexError := by
  unfold ZVI.initCore
  simp [h, pyMax]

theorem initCore_both (c : Container) (shape : Nat × Nat)
    (f : List (List Nat) → List (List Nat)) (dt : Option NpDtype)
    (toc : List Nat) (m : Nat)
    (h1 : buildToc c.streams = .ok toc) (h2 : pyMax toc = some m) :
    ZVI.initCore c shape (some f) dt true = .error PyError.configurationError := by
  unfold ZVI.initCore
  simp [h1, h2, asGreyCheck]

/- ### Lemmas about the decode pipeline -/

theorem length_bytesToSamples : ∀ l : List Nat, (bytesToSamples l).length = l.length / 2
  | [] => rfl
  | [_] => by simp [bytesToSamples]
  | _ :: _ :: rest => by
    simp only [bytesToSamples, List.length_cons, length_bytesToSamples rest]
    omega

theorem length_npRoll (x : List Nat) (s : Int) : (npRoll x s).length = x.length := by
  unfold npRoll
  exact List.length_rotate x _

theorem length_chunkRows (w : Nat) : ∀ (h : Nat) (xs : List Nat),
    (chunkRows w h xs).length = h
  | 0, _ => rfl
  | h + 1, xs => by simp [chunkRows, length_chunkRows w h]

theorem mem_chunkRows_length (w : Nat) : ∀ (h : Nat) (xs : List Nat),
    w * h ≤ xs.length → ∀ r ∈ chunkRows w h xs, r.length = w
  | 0, xs, _, r, hr => by simp [chunkRows] at hr
  | h + 1, xs, hlen, r, hr => by
    rw [Nat.mul_succ] at hlen
    simp only [chunkRows, List.mem_cons] at hr
    rcases hr with rfl | hr
    · rw [List.length_take]; omega
    · exact mem_chunkRows_length w h (xs.drop w)
        (by rw [List.length_drop]; omega) r hr

theorem flatten_chunkRows (w : Nat) : ∀ (h : Nat) (xs : List Nat),
    xs.length = w * h → (chunkRows w h xs).flatten = xs
  | 0, xs, hlen => by
    rw [Nat.mul_zero] at hlen
    rw [List.length_eq_zero.mp hlen]
    rfl
  | h + 1, xs, hlen => by
    rw [Nat.mul_succ] at hlen
    simp only [chunkRows, List.flatten_cons]
    rw [flatten_chunkRows w h (xs.drop w) (by rw [List.length_drop]; omega)]
    exact List.take_append_drop w xs

/-- The samples of one decoded frame number w times h, given a stream
long enough for the configured shape. -/
theorem length_decodedSamples (w h : Nat) (data : List Nat)
    (hlen : 2 * (w * h) ≤ data.length) :
    (decodedSamples w h data).length = w * h := by
  unfold decodedSamples
  rw [length_npRoll, length_bytesToSamples, List.length_take]
  omega

/- ### The circular roll is a rotation and is self-inverse -/

theorem npRoll_npRoll (x : List Nat) (s : Int) : npRoll (npRoll x s) (-s) = x := by
  rcases Nat.eq_zero_or_pos x.length with h0 | hpos
  · rw [List.length_eq_zero.mp h0]
    simp [npRoll]
  · unfold npRoll
    rw [List.length_rotate, List.rotate_rotate, neg_neg]
    have hn0 : (x.length : Int) ≠ 0 := by
      simp only [ne_eq, Int.natCast_eq_zero]
      omega
    have hnpos : (0 : Int) < (x.length : Int) := by exact_mod_cast hpos
    have hu0 : 0 ≤ (-s) % (x.length : Int) := Int.emod_nonneg _ hn0
    have hv0 : 0 ≤ s % (x.length : Int) := Int.emod_nonneg _ hn0
    have hun : (-s) % (x.length : Int) < x.length := Int.emod_lt_of_pos _ hnpos
    have hvn : s % (x.length : Int) < x.length := Int.emod_lt_of_pos _ hnpos
    have hdvd : (x.length : Int) ∣ ((-s) % (x.length : Int) + s % (x.length : Int)) := by
      apply Int.dvd_of_emod_eq_zero
      rw [← Int.add_emod]
      simp
    obtain ⟨k, hk⟩ := hdvd
    have hcases : (-s) % (x.length : Int) + s % (x.length : Int) = 0 ∨
        (-s) % (x.length : Int) + s % (x.length : Int) = x.length := by
      rcases le_or_lt k 0 with hk0 | hk1
      · left
        have hnk : (x.length : Int) * k ≤ 0 :=
          mul_nonpos_of_nonneg_of_nonpos (le_of_lt hnpos) hk0
        linarith
      · rcases lt_or_le k 2 with h2 | h2
        · right
          have hk1' : k = 1 := by omega
          rw [hk1', mul_one] at hk
          linarith
        · exfalso
          have hnk : (x.length : Int) * 2 ≤ (x.length : Int) * k :=
            mul_le_mul_of_nonneg_left h2 (le_of_lt hnpos)
          linarith
    have htn : Int.toNat ((-s) % (x.length : Int)) + Int.toNat (s % (x.length : Int)) =
        Int.toNat ((-s) % (x.length : Int) + s % (x.length : Int)) :=
      (Int.toNat_add hu0 hv0).symm
    rcases hcases with hz | hfull
    · rw [htn, hz]
      exact List.rotate_zero x
    · rw [htn, hfull]
      simp only [Int.toNat_natCast]
      exact List.rotate_length x

/-- Evaluation of get_frame on a present, long-enough stream. -/
theorem get_frame_ok (z : ZVI) (j : Int) (data : List Nat)
    (hc : z.ole.content (itemPath j) = some data)
    (hlen : 2 * (z.im_sz.1 * z.im_sz.2) ≤ data.length) :
    z.get_frame j = .ok ⟨z.process_func (chunkRows z.im_sz.1 z.im_sz.2
      (decodedSamples z.im_sz.1 z.im_sz.2 data)), j⟩ := by
  simp only [ZVI.get_frame, hc]
  rw [if_neg (by omega)]

/-- Evaluation of get_frame on a missing stream. -/
theorem get_frame_missing (z : ZVI) (j : Int)
    (hc : z.ole.content (itemPath j) = none) :
    z.get_frame j = .error PyError.missingFrameError := by
  simp only [ZVI.get_frame, hc]

/- ### Concrete containers used as witnesses and counterexamples -/

def p0 : List String := ["Image", "Item(0)", "Contents"]
def p1 : List String := ["Image", "Item(1)", "Contents"]
def p2 : List String := ["Image", "Item(2)", "Contents"]
def p3 : List String := ["Image", "Item(3)", "Contents"]

def contW1 : Container := ⟨[p2, p0], fun _ => none⟩
def contW2 : Container := ⟨[p0, p2], fun _ => none⟩

def cc2 : Container :=
  ⟨[p0, p1], fun path => if path = p0 then some [1, 0, 2, 0] else none⟩

def zc2 : ZVI := ⟨cc2, (2, 1), NpDtype.uint16, [0, 1], 1, id⟩

def cc3 : Container :=
  ⟨[p0, p1, p3], fun path =>
    if path = p0 then some [7, 0]
    else if path = p1 then some [8, 0]
    else if path = p3 then some [9, 0]
    else none⟩

def funId : List (List Nat) → List (List Nat) := id

def cc4 : Container := ⟨[p0], fun _ => some [0, 0]⟩

def cc7 : Container := ⟨[["Image"]], fun _ => none⟩

def cc7b : Container := ⟨[["SomePreviewData"], ["Thumbnail", "Item(0)"]], fun _ => none⟩

def cc10 : Container := ⟨[p0], fun _ => none⟩

def zc10 : ZVI := ⟨cc10, (1, 1), NpDtype.uint16, [0], 0, id⟩

example : parseItem "Item(3)" = some 3 := by decide
example : parseItem "Item(3)x" = some 3 := by decide
example : parseItemFull "Item(3)x" = none := by decide
example : parseItem "Item()" = none := by decide
example : parseItem "Thumbnail" = none := by decide
example : scanStream ["Image", "Item(12)", "Contents"] = .ok (some 12) := by decide
example : scanStream ["Image"] = .error PyError.indexError := by decide
example : scanStream ["Other", "Item(1)"] = .ok none := by decide
example : buildToc [["Image", "Item(0)", "Contents"], ["Image", "Item(3)", "Contents"], ["Junk"]] = .ok [0, 3] := by decide
example : pyMax [2, 0, 1] = some 2 := by decide
example : itemPath 0 = ["Image", "Item(0)", "Contents"] := by decide
example : bytesToSamples [1, 0, 2, 0] = [1, 2] := by decide
example : npRoll [1, 2, 3] (-1) = [2, 3, 1] := by decide
example : npRoll [1, 2, 3] 1 = [3, 1, 2] := by decide
example : chunkRows 2 2 [1, 2, 3, 4] = [[1, 2], [3, 4]] := by decide

/- ### Evaluation of the construction projections -/

theorem initLen_of_core (c : Container) (shape : Nat × Nat)
    (pf : Option (List (List Nat) → List (List Nat))) (dt : Option NpDtype)
    (ag : Bool) (z : ZVI) (h : ZVI.initCore c shape pf dt ag = .ok z) :
    initLen (ZVI.init c shape pf dt ag) = some z.len := by
  simp [initLen, ZVI.init, h]

theorem initGet_of_core (c : Container) (shape : Nat × Nat)
    (pf : Option (List (List Nat) → List (List Nat))) (dt : Option NpDtype)
    (ag : Bool) (z : ZVI) (j : Int) (h : ZVI.initCore c shape pf dt ag = .ok z) :
    initGet (ZVI.init c shape pf dt ag) j = some (z.get_frame j) := by
  simp [initGet, ZVI.init, h]

/- ### The claims -/

/-- Claim C1: for every container whose recognized frame streams have
item-numbers i1..in with n at least 1, the reported length of the
sequence equals the maximum recognized item-number, not the count of
recognized streams, and this value is independent of the order in which
the container lists its streams. -/
theorem c1_length_is_max_order_independent :
    ∀ (c c' : Container) (shape shape' : Nat × Nat) (dt dt' : Option NpDtype)
      (toc : List Nat) (m : Nat),
    c.streams.Perm c'.streams →
    buildToc c.streams = .ok toc →
    pyMax toc = some m →
    initLen (ZVI.init c shape none dt false) = some m ∧
    initLen (ZVI.init c' shape' none dt' false) = some m ∧
    m ∈ toc ∧ toc.all (fun i => decide (i ≤ m)) = true := by
  intro c c' shape shape' dt dt' toc m hperm hb hm
  obtain ⟨hteq, hscan⟩ := buildToc_ok _ _ hb
  have hscan' : ∀ s ∈ c'.streams, ∃ r, scanStream s = .ok r :=
    fun s hs => hscan s (hperm.mem_iff.mpr hs)
  have hb' : buildToc c'.streams = .ok (okToc c'.streams) :=
    buildToc_ok_of_scan _ hscan'
  have hpermtoc : toc.Perm (okToc c'.streams) := hteq ▸ hperm.filterMap scanOk
  obtain ⟨hmem, hub⟩ := pyMax_spec toc m hm
  have hne' : okToc c'.streams ≠ [] := by
    intro hnil
    rw [hnil] at hpermtoc
    rw [hpermtoc.eq_nil] at hm
    exact absurd hm (by simp [pyMax])
  obtain ⟨m', hm'⟩ := pyMax_of_ne_nil _ hne'
  obtain ⟨hmem', hub'⟩ := pyMax_spec _ _ hm'
  have hmm' : m = m' :=
    le_antisymm (hub' m (hpermtoc.mem_iff.mp hmem)) (hub m' (hpermtoc.mem_iff.mpr hmem'))
  refine ⟨?_, ?_, hmem, ?_⟩
  · rw [initLen_of_core c shape none dt false _
      (initCore_ok c shape none dt false toc m id hb hm rfl)]
  · rw [initLen_of_core c' shape' none dt' false _
      (initCore_ok c' shape' none dt' false (okToc c'.streams) m' id hb' hm' rfl)]
    rw [hmm']
  · simp only [List.all_eq_true, decide_eq_true_eq]
    exact hub

/-- Witness for C1 at a concrete pair of containers listing the same
streams in opposite orders. -/
theorem c1_witness :
    initLen (ZVI.init contW1 (1, 1) none none false) = some 2 ∧
    initLen (ZVI.init contW2 (1, 1) none none false) = some 2 ∧
    2 ∈ [2, 0] ∧ ([2, 0].all (fun i => decide (i ≤ 2)) = true) :=
  c1_length_is_max_order_independent contW1 contW2 (1, 1) (1, 1) none none
    [2, 0] 2
    (by show List.Perm [p2, p0] [p0, p2]; exact List.Perm.swap p0 p2 [])
    (by decide) (by decide)

/-- Claim C2 as stated is false on the code: the decoded array has numpy
shape height by width, which is the reverse of the frame_shape property,
the width-height pair supplied by the caller. Concretely, with shape
(2, 1) the frame_shape property is (2, 1) while the returned array is
one row of two samples, numpy shape (1, 2). -/
theorem c2_counterexample :
    (ZVI.init cc2 (2, 1) none none false).2 = .ok zc2 ∧
    zc2.len = 1 ∧
    zc2.frame_shape = (2, 1) ∧
    zc2.get_frame 0 = .ok ⟨[[1, 2]], 0⟩ ∧
    rowsShape [[1, 2]] ≠ (2, 1) := by
  refine ⟨?_, rfl, rfl, ?_, by decide⟩
  · show ZVI.initCore cc2 (2, 1) none none false = .ok zc2
    rfl
  · rfl

/-- Claim C2 (amended): for every index j with 0 <= j < length whose
backing stream exists and is long enough, get_frame j returns a Frame
decoded from the stream at path Image, Item(j), Contents as a row-major
2D array of h rows of w 16-bit little-endian samples with the circular
offset correction applied, tagged with frame number j; the numpy shape
of that array is (h, w), the reverse of the frame_shape property (w, h);
it never returns a differently-sized array. -/
theorem c2_decode_shape :
    ∀ (c : Container) (w h : Nat) (dt : Option NpDtype) (z : ZVI) (j : Int)
      (data : List Nat),
    (ZVI.init c (w, h) none dt false).2 = .ok z →
    0 ≤ j → j < (z.len : Int) →
    c.content (itemPath j) = some data →
    2 * (w * h) ≤ data.length →
    z.frame_shape = (w, h) ∧
    z.get_frame j = .ok ⟨chunkRows w h (decodedSamples w h data), j⟩ ∧
    (chunkRows w h (decodedSamples w h data)).length = h ∧
    (chunkRows w h (decodedSamples w h data)).all
      (fun r => decide (r.length = w)) = true ∧
    (chunkRows w h (decodedSamples w h data)).flatten = decodedSamples w h data := by
  intro c w h dt z j data hinit h0 hlt hc hlen
  obtain ⟨toc, m, pfn, hb, hm, hg, hz⟩ :=
    initCore_ok_inv c (w, h) none dt false z hinit
  have hpfn : pfn = id :=
    (Except.ok.inj ((rfl : asGreyCheck none false = .ok id).symm.trans hg)).symm
  subst hz
  subst hpfn
  have hsamp : (decodedSamples w h data).length = w * h :=
    length_decodedSamples w h data hlen
  refine ⟨rfl, ?_, length_chunkRows w h _, ?_, flatten_chunkRows w h _ hsamp⟩
  · exact get_frame_ok _ j data hc hlen
  · simp only [List.all_eq_true, decide_eq_true_eq]
    exact mem_chunkRows_length w h _ (le_of_eq hsamp.symm)

/-- Witness for the amended C2 at a concrete container with shape (2, 1)
and a four-byte stream. -/
theorem c2_witness :
    zc2.frame_shape = (2, 1) ∧
    zc2.get_frame 0 = .ok ⟨chunkRows 2 1 (decodedSamples 2 1 [1, 0, 2, 0]), 0⟩ ∧
    (chunkRows 2 1 (decodedSamples 2 1 [1, 0, 2, 0])).length = 1 ∧
    (chunkRows 2 1 (decodedSamples 2 1 [1, 0, 2, 0])).all
      (fun r => decide (r.length = 2)) = true ∧
    (chunkRows 2 1 (decodedSamples 2 1 [1, 0, 2, 0])).flatten =
      decodedSamples 2 1 [1, 0, 2, 0] :=
  c2_decode_shape cc2 2 1 none zc2 0 [1, 0, 2, 0] rfl (by decide) (by decide)
    (by decide) (by decide)

/-- Claim C3: for a container with recognized streams at paths
Image/Item(0)/Contents, Image/Item(1)/Contents and Image/Item(3)/Contents,
with Item(2) absent, the constructed sequence has length 3; frames 0, 1
and 3 are each returned successfully by get_frame; and requesting frame 2
fails with MissingFrameError, surfaced per request and not swallowed. -/
theorem c3_gap_tolerant_index :
    ∀ (c : Container) (w h : Nat) (dt : Option NpDtype) (d0 d1 d3 : List Nat),
    c.streams = [p0, p1, p3] →
    c.content (itemPath 0) = some d0 → 2 * (w * h) ≤ d0.length →
    c.content (itemPath 1) = some d1 → 2 * (w * h) ≤ d1.length →
    c.content (itemPath 3) = some d3 → 2 * (w * h) ≤ d3.length →
    c.content (itemPath 2) = none →
    initLen (ZVI.init c (w, h) none dt false) = some 3 ∧
    (initGet (ZVI.init c (w, h) none dt false) 0).map isOkFrame = some true ∧
    (initGet (ZVI.init c (w, h) none dt false) 1).map isOkFrame = some true ∧
    (initGet (ZVI.init c (w, h) none dt false) 3).map isOkFrame = some true ∧
    initGet (ZVI.init c (w, h) none dt false) 2 =
      some (.error PyError.missingFrameError) := by
  intro c w h dt d0 d1 d3 hs hc0 hl0 hc1 hl1 hc3 hl3 hc2
  have hb : buildToc c.streams = .ok [0, 1, 3] := by rw [hs]; decide
  have hcore := initCore_ok c (w, h) none dt false [0, 1, 3] 3 id hb (by decide) rfl
  refine ⟨?_, ?_, ?_, ?_, ?_⟩
  · rw [initLen_of_core c (w, h) none dt false _ hcore]
  · rw [initGet_of_core c (w, h) none dt false _ 0 hcore]
    rw [get_frame_ok _ 0 d0 hc0 hl0]
    rfl
  · rw [initGet_of_core c (w, h) none dt false _ 1 hcore]
    rw [get_frame_ok _ 1 d1 hc1 hl1]
    rfl
  · rw [initGet_of_core c (w, h) none dt false _ 3 hcore]
    rw [get_frame_ok _ 3 d3 hc3 hl3]
    rfl
  · rw [initGet_of_core c (w, h) none dt false _ 2 hcore]
    rw [get_frame_missing _ 2 hc2]

/-- Witness for C3 at a concrete container with streams Item(0), Item(1)
and Item(3) of two bytes each and shape (1, 1). -/
theorem c3_witness :
    initLen (ZVI.init cc3 (1, 1) none none false) = some 3 ∧
    (initGet (ZVI.init cc3 (1, 1) none none false) 0).map isOkFrame = some true ∧
    (initGet (ZVI.init cc3 (1, 1) none none false) 1).map isOkFrame = some true ∧
    (initGet (ZVI.init cc3 (1, 1) none none false) 3).map isOkFrame = some true ∧
    initGet (ZVI.init cc3 (1, 1) none none false) 2 =
      some (.error PyError.missingFrameError) :=
  c3_gap_tolerant_index cc3 1 1 none [7, 0] [8, 0] [9, 0] rfl
    (by decide) (by decide) (by decide) (by decide) (by decide) (by decide)
    (by decide)

/-- Claim C4 as stated is false on the code: constructing with both a
processing transform and the greyscale flag does raise the configuration
error, but only after I/O has occurred, because the constructor opens
the container and lists its streams, source lines 71-72, before the
validation of lines 89-90 runs; the I/O trace at the failure is
nonempty. -/
theorem c4_counterexample :
    (ZVI.init cc4 (1, 1) (some funId) none true).2 =
      .error PyError.configurationError ∧
    (ZVI.init cc4 (1, 1) (some funId) none true).1 ≠ [] := by
  refine ⟨?_, by decide⟩
  show ZVI.initCore cc4 (1, 1) (some funId) none true = _
  rfl

/-- Claim C4 (amended): constructing with both a processing transform and
the greyscale flag fails with ConfigurationError, but the failure occurs
after the container is opened and its streams are listed, and only when
index construction succeeded first, since an empty index fails earlier
with EmptyIndexError. -/
theorem c4_config_error_after_io :
    ∀ (c : Container) (shape : Nat × Nat)
      (f : List (List Nat) → List (List Nat)) (dt : Option NpDtype)
      (toc : List Nat) (m : Nat),
    buildToc c.streams = .ok toc →
    pyMax toc = some m →
    ZVI.init c shape (some f) dt true =
      ([IoEvent.openContainer, IoEvent.listStreams],
        .error PyError.configurationError) := by
  intro c shape f dt toc m h1 h2
  unfold ZVI.init
  rw [initCore_both c shape f dt toc m h1 h2]

/-- Witness for the amended C4 at a concrete container with one
recognized stream. -/
theorem c4_witness :
    ZVI.init cc4 (1, 1) (some funId) none true =
      ([IoEvent.openContainer, IoEvent.listStreams],
        .error PyError.configurationError) :=
  c4_config_error_after_io cc4 (1, 1) funId none [0] 0 (by decide) (by decide)

/-- Claim C5 as stated is false on the code in two ways. First, the
source uses re.match, which anchors only at the start, so a second
component with trailing text after the closing parenthesis is still
recognized: the path Image, Item(3)x, Contents is recognized with item
number 3 although its second component does not match the pattern in its
entirety. Second, a path consisting of the single component Image is
non-matching but is not silently skipped: the source indexes component 1
and raises IndexError. -/
theorem c5_counterexample :
    scanStream ["Image", "Item(3)x", "Contents"] = .ok (some 3) ∧
    parseItemFull "Item(3)x" = none ∧
    scanStream ["Image"] = .error PyError.indexError := by
  decide

/-- Claim C5 (amended): during index construction, a stream path with at
least two components is recognized as a frame if and only if its first
component is exactly Image and its second component starts with the
Item-open text, a nonempty digit run and a closing parenthesis, with an
arbitrary remainder allowed after the closing parenthesis; the maximal
digit run is parsed as the item number. A path with at least two
components that fails this test is silently skipped. However, a path
consisting of the single component Image, or an empty path, raises
IndexError rather than being skipped. -/
theorem c5_recognition_characterized :
    ∀ (c0 c1 : String) (rest : List String),
    (∀ n : Nat, scanStream (c0 :: c1 :: rest) = .ok (some n) ↔
      (c0 = "Image" ∧ ∃ ds tail, c1.data = itemHead ++ (ds ++ ')' :: tail) ∧
        ds ≠ [] ∧ (∀ ch ∈ ds, ch.isDigit = true) ∧ n = digitsVal ds)) ∧
    (scanStream (c0 :: c1 :: rest) = .ok none ↔
      (c0 = "Image" → parseItem c1 = none)) ∧
    (scanStream [c0] =
      if c0 = "Image" then .error PyError.indexError else .ok none) ∧
    scanStream ([] : List String) = .error PyError.indexError := by
  intro c0 c1 rest
  refine ⟨?_, ?_, ?_, rfl⟩
  · intro n
    by_cases h : c0 = "Image"
    · subst h
      have hss : scanStream ("Image" :: c1 :: rest) = .ok (parseItem c1) := rfl
      rw [hss]
      simp only [Except.ok.injEq, true_and]
      show parseItemChars c1.data = some n ↔ _
      rw [parseItemChars_eq_some]
    · simp [scanStream, h]
  · by_cases h : c0 = "Image"
    · subst h
      have hss : scanStream ("Image" :: c1 :: rest) = .ok (parseItem c1) := rfl
      rw [hss]
      simp
    · simp [scanStream, h]
  · by_cases h : c0 = "Image" <;> simp [scanStream, h]

/-- Witness for the amended C5: a fully matching component is recognized
with its item number, and a path with a different first component is
silently skipped. -/
theorem c5_witness :
    scanStream ["Image", "Item(12)", "Contents"] = .ok (some 12) ∧
    scanStream ["Thumbnail", "Item(0)"] = .ok none :=
  ⟨((c5_recognition_characterized "Image" "Item(12)" ["Contents"]).1 12).mpr
      ⟨rfl, ['1', '2'], [], by decide, by decide, by decide, by decide⟩,
    ((c5_recognition_characterized "Thumbnail" "Item(0)" []).2.1).mpr
      (fun h => absurd h (by decide))⟩

/-- Claim C6: the offset correction applied by the frame decoder is a
true circular rotation of the flattened sample sequence backward by 162
samples, wrapping around the end of the buffer, and it is self-inverse
under a forward rotation of the same magnitude: for every sample buffer
x, rolling by minus 162 and then by plus 162 returns x exactly. -/
theorem c6_offset_correction_self_inverse :
    ∀ (x : List Nat), npRoll (npRoll x (-162)) 162 = x := by
  intro x
  have h := npRoll_npRoll x (-162)
  simpa using h

/-- Claim C7 as stated is false on the code: a container whose listing
consists of the single-component path Image recognizes zero stream paths
as frames, yet construction fails with IndexError, raised while scanning
that path, rather than with EmptyIndexError. -/
theorem c7_counterexample :
    okToc cc7.streams = [] ∧
    (ZVI.init cc7 (1, 1) none none false).2 = .error PyError.indexError ∧
    PyError.indexError ≠ PyError.emptyIndexError := by
  refine ⟨by decide, ?_, by decide⟩
  show ZVI.initCore cc7 (1, 1) none none false = _
  rfl

/-- Claim C7 (amended): for every container whose stream scan completes
without error and recognizes zero stream paths as frames, construction
fails with EmptyIndexError, an explicit error raised at construction; a
container whose listing makes the scan itself fail, such as one holding
a bare single-component Image path, fails with IndexError instead. -/
theorem c7_empty_index_error :
    ∀ (c : Container) (shape : Nat × Nat)
      (pf : Option (List (List Nat) → List (List Nat))) (dt : Option NpDtype)
      (ag : Bool),
    buildToc c.streams = .ok [] →
    (ZVI.init c shape pf dt ag).2 = .error PyError.emptyIndexError := by
  intro c shape pf dt ag h
  show ZVI.initCore c shape pf dt ag = _
  exact initCore_empty c shape pf dt ag h

/-- Witness for the amended C7 at a concrete container none of whose
stream paths is recognized. -/
theorem c7_witness :
    (ZVI.init cc7b (1, 1) none none false).2 = .error PyError.emptyIndexError :=
  c7_empty_index_error cc7b (1, 1) none none false (by decide)

/-- Claim C8: for every constructed sequence, indexed retrieval with
index minus 1 is equivalent to retrieval with index length minus 1:
negative indices count from the end. Stated on the facade get, which is
modelled from the spec because the source inherits it from the external
pims base class. -/
theorem c8_negative_index_equiv (z : ZVI) :
    z.get (-1) = z.get ((z.len : Int) - 1) := by
  unfold ZVI.get
  split_ifs <;> first | rfl | (exfalso; omega)

/-- Claim C9: decoding is deterministic: two consecutive get_frame calls
against the same unmodified container yield bit-identical results, the
first call leaving the reader state unchanged. -/
theorem c9_deterministic_decode (z : ZVI) (j : Int) :
    (ZVI.get_frameS ((ZVI.get_frameS z j).2) j).1 = (ZVI.get_frameS z j).1 := rfl

/-- Claim C10: the constructor dtype argument is ignored: construction
results are identical for any two dtype arguments, and the pixel_type of
every constructed sequence is unsigned 16-bit. -/
theorem c10_dtype_ignored :
    ∀ (c : Container) (shape : Nat × Nat)
      (pf : Option (List (List Nat) → List (List Nat)))
      (d1 d2 : Option NpDtype) (ag : Bool),
    ZVI.init c shape pf d1 ag = ZVI.init c shape pf d2 ag ∧
    (∀ z : ZVI, (ZVI.init c shape pf d1 ag).2 = .ok z →
      z.pixel_type = NpDtype.uint16) := by
  intro c shape pf d1 d2 ag
  refine ⟨rfl, ?_⟩
  intro z h
  obtain ⟨toc, m, pfn, _, _, _, hz⟩ := initCore_ok_inv c shape pf d1 ag z h
  rw [hz]
  rfl

/-- Witness for C10: a concrete container constructed with dtype uint8
and with no dtype gives identical results, and its pixel_type is
uint16. -/
theorem c10_witness :
    ZVI.init cc10 (1, 1) none (some NpDtype.uint8) false =
      ZVI.init cc10 (1, 1) none none false ∧
    zc10.pixel_type = NpDtype.uint16 :=
  ⟨(c10_dtype_ignored cc10 (1, 1) none (some NpDtype.uint8) none false).1,
    (c10_dtype_ignored cc10 (1, 1) none (some NpDtype.uint8) none false).2
      zc10 rfl⟩
